import Mathlib

/-!
Verification of the fitting-configuration core of the `radd` package
(`radd/CORE.py` and `radd/tools/utils.py`) against its specification.

The Python code is shallowly embedded: pandas columns become homogeneous
lists, dictionaries become association lists (`List (String × _)`), and
fallible operations (KeyError, IndexError, ...) return `Except PyError`.
-/

namespace Radd

/-- Python exceptions that the embedded code paths can raise. -/
inductive PyError where
  | valueError
  | keyError (key : String)
  | indexError
  | typeError
  | nameError (n : String)
  | attributeError
  | zeroDivisionError
  | configurationError
  deriving DecidableEq, Repr

/-- A scalar value held by a dataframe cell or a subject id (`str()` is
`pyStr`). -/
inductive PyVal where
  | intV (n : Int)
  | strV (s : String)
  deriving DecidableEq, Repr

/-- Python `str()` on the scalar values we model. -/
def pyStr : PyVal → String
  | .intV n => toString n
  | .strV s => s

/-- Association-list lookup: reading `d[k]` from a Python dict, first
matching key wins (keys of a genuine dict are unique). -/
def alookup {α : Type} (k : String) : List (String × α) → Option α
  | [] => none
  | kv :: rest => if kv.1 = k then some kv.2 else alookup k rest

/-- Python list indexing `l[i]` with nonnegative index: `IndexError` when
out of range. -/
def pyGet {α : Type} (l : List α) (i : Nat) : Except PyError α :=
  match l.get? i with
  | some x => .ok x
  | none => .error .indexError

/-- Insert into a list sorted by the boolean comparison `le`. -/
def insertLe {α : Type} (le : α → α → Bool) (x : α) : List α → List α
  | [] => [x]
  | y :: ys => if le x y then x :: y :: ys else y :: insertLe le x ys

/-- Insertion sort by the boolean comparison `le`. -/
def sortLe {α : Type} (le : α → α → Bool) : List α → List α
  | [] => []
  | x :: xs => insertLe le x (sortLe le xs)

/-- Strict lexicographic comparison of character lists (Python / numpy
string ordering by code point). -/
def charListLt : List Char → List Char → Bool
  | [], [] => false
  | [], _ :: _ => true
  | _ :: _, [] => false
  | a :: as, b :: bs =>
      if a < b then true else if b < a then false else charListLt as bs

/-- Strict string comparison by code points. -/
def strLtB (a b : String) : Bool := charListLt a.data b.data

/-- Non-strict string comparison by code points. -/
def strLeB (a b : String) : Bool := !(strLtB b a)

/-- Non-strict integer comparison as a boolean. -/
def intLeB (a b : Int) : Bool := decide (a ≤ b)

/-- `np.unique`: the distinct elements of a list, sorted ascending. -/
def sortedUnique {α : Type} [DecidableEq α] (le : α → α → Bool) (xs : List α) :
    List α :=
  sortLe le xs.dedup

/-- A dataframe column; columns in the data this core consumes are
homogeneous (integer-valued or string-valued). -/
inductive Col where
  | intCol (xs : List Int)
  | strCol (xs : List String)
  deriving DecidableEq, Repr

/-- The raw trial table: a row count and named columns. -/
structure Data where
  nrows : Nat
  cols : List (String × Col)
  deriving DecidableEq, Repr

/-- `data[c]` with Python `KeyError` on a missing column. -/
def dataGetCol (d : Data) (c : String) : Except PyError Col :=
  match alookup c d.cols with
  | some col => .ok col
  | none => .error (.keyError c)

/-- `data[name] = col`: overwrite an existing column, else append. -/
def setCol (cols : List (String × Col)) (nm : String) (c : Col) :
    List (String × Col) :=
  if (alookup nm cols).isSome then
    cols.map (fun kv => if kv.1 = nm then (nm, c) else kv)
  else cols ++ [(nm, c)]

/-- `np.sort(data[c].unique())` followed by `str()` coercion of every
level (CORE.py lines 272-273): the sort happens BEFORE the coercion, in
the column's native order. -/
def colLevels : Col → List String
  | .intCol xs => (sortedUnique intLeB xs).map (fun n => toString n)
  | .strCol xs => sortedUnique strLeB xs

/-- Number of distinct values a column takes. -/
def distinctCount : Col → Nat
  | .intCol xs => xs.dedup.length
  | .strCol xs => xs.dedup.length

/-- A `depends_on` value: one factor name, or a Python list of factor
names. -/
inductive Dep where
  | single (factor : String)
  | multi (factors : List String)
  deriving DecidableEq, Repr

/-- The factor names a dependency references. -/
def depFactors : Dep → List String
  | .single f => [f]
  | .multi fs => fs

/-- `itertools.product` over a list of level lists: the leftmost factor
varies slowest, exactly the traversal order of the Python generator. -/
def pyProduct {α : Type} : List (List α) → List (List α)
  | [] => [[]]
  | xs :: rest => xs.flatMap (fun x => (pyProduct rest).map (fun tail => x :: tail))

/-- `'_'.join(parts)`. -/
def joinUnder : List String → String
  | [] => ""
  | [x] => x
  | x :: y :: rest => x ++ "_" ++ joinUnder (y :: rest)

/-- `self.clmap[cond]` with Python `KeyError` on a missing factor. -/
def clmapGet (clmap : List (String × List String)) (c : String) :
    Except PyError (List String) :=
  match alookup c clmap with
  | some lvls => .ok lvls
  | none => .error (.keyError c)

/-- Effectful map over a list, short-circuiting on the first error
(the semantics of a Python loop or comprehension that can raise). -/
def exceptMapM {α β : Type} (f : α → Except PyError β) :
    List α → Except PyError (List β)
  | [] => .ok []
  | x :: xs =>
    match f x with
    | .error e => .error e
    | .ok y =>
      match exceptMapM f xs with
      | .error e => .error e
      | .ok ys => .ok (y :: ys)

/-- The level tags computed for one parameter inside `__format_pcmap__`
(CORE.py lines 297-305): a list-valued dependency takes the
`itertools.product` of its factors' level lists joined by `'_'`; a
single-factor dependency takes that factor's levels as stored. -/
def paramLevels (clmap : List (String × List String)) : Dep →
    Except PyError (List String)
  | .single f => clmapGet clmap f
  | .multi fs =>
    match exceptMapM (clmapGet clmap) fs with
    | .error e => .error e
    | .ok levels => .ok ((pyProduct levels).map joinUnder)

/-- One entry of the pcmap: the parameter name paired with its
synthesized `"{param}_{level tag}"` names (CORE.py line 307). -/
def pcEntry (clmap : List (String × List String)) (pd : String × Dep) :
    Except PyError (String × List String) :=
  match paramLevels clmap pd.2 with
  | .error e => .error e
  | .ok clevels => .ok (pd.1, clevels.map (fun clvl => pd.1 ++ "_" ++ clvl))

/-- `__format_pcmap__` (CORE.py lines 288-312): expand `depends_on` into
parameter name lists `"{param}_{level tag}"`. -/
def format_pcmap (clmap : List (String × List String))
    (depends_on : List (String × Dep)) :
    Except PyError (List (String × List String)) :=
  exceptMapM (pcEntry clmap) depends_on

/-- The state `set_conditions` (CORE.py lines 261-279) leaves on the
model object. -/
structure CondState where
  data : Data
  depends_on : List (String × Dep)
  conds : List String
  nconds : Nat
  is_flat : Bool
  clmap : List (String × List String)
  cond_matrix : List Nat
  nlevels : Nat
  pcmap : List (String × List String)
  groups : List String
  deriving DecidableEq, Repr

/-- `np.unique(np.hstack(listvalues(self.depends_on)))` (CORE.py line
264): the distinct factor names referenced by `depends_on`, sorted. -/
def condsOf (depends_on : List (String × Dep)) : List String :=
  sortedUnique strLeB (depends_on.flatMap (fun pd => depFactors pd.2))

/-- `data['flat'] = 'flat'` (CORE.py line 268) when the sentinel factor
is referenced, otherwise the data unchanged. -/
def dataWithFlat (data : Data) (isFlat : Bool) : Data :=
  if isFlat then
    { data with
      cols := setCol data.cols "flat" (.strCol (List.replicate data.nrows "flat")) }
  else data

/-- `[np.sort(data[c].unique()) ... for c in self.conds]` with the string
coercion (CORE.py lines 272-273). -/
def clevelsOf (data1 : Data) (conds : List String) :
    Except PyError (List (List String)) :=
  exceptMapM (fun c => (dataGetCol data1 c).map colLevels) conds

/-- `set_conditions` (CORE.py lines 261-279).  `np.hstack` of an empty
value list raises `ValueError`; a referenced factor missing from the data
raises `KeyError` at `data[c]`; `np.cumprod([])[-1]` raises `IndexError`
when no factor at all is referenced. -/
def set_conditions (data : Data) (depends_on : List (String × Dep)) :
    Except PyError CondState :=
  if depends_on = [] then .error .valueError
  else
    match clevelsOf (dataWithFlat data ((condsOf depends_on).contains "flat"))
        (condsOf depends_on) with
    | .error e => .error e
    | .ok clevels =>
      if clevels.map List.length = [] then .error .indexError
      else
        match format_pcmap ((condsOf depends_on).zip clevels) depends_on with
        | .error e => .error e
        | .ok pcmap =>
          .ok { data := dataWithFlat data ((condsOf depends_on).contains "flat")
                depends_on := depends_on
                conds := condsOf depends_on
                nconds := (condsOf depends_on).length
                is_flat := (condsOf depends_on).contains "flat"
                clmap := (condsOf depends_on).zip clevels
                cond_matrix := clevels.map List.length
                nlevels := (clevels.map List.length).foldl (· * ·) 1
                pcmap := pcmap
                groups := "idx" :: condsOf depends_on }

instance exceptDecEq {ε α : Type} [DecidableEq ε] [DecidableEq α] :
    DecidableEq (Except ε α) := fun x y =>
  match x, y with
  | .ok a, .ok b =>
      if h : a = b then isTrue (congrArg Except.ok h)
      else isFalse (fun hc => h (Except.ok.inj hc))
  | .error a, .error b =>
      if h : a = b then isTrue (congrArg Except.error h)
      else isFalse (fun hc => h (Except.error.inj hc))
  | .ok _, .error _ => isFalse (fun hc => Except.noConfusion hc)
  | .error _, .ok _ => isFalse (fun hc => Except.noConfusion hc)

/-- Spec-side description of multi-factor level tags: the full
cross-product of the factors' level lists, leftmost factor varying
slowest, tags joined by `"_"`.  Written independently of
`pyProduct`/`joinUnder` so that `format_pcmap` can be checked against the
specification's wording. -/
def crossJoin : List (List String) → List String
  | [] => []
  | [xs] => xs
  | xs :: y :: rest =>
      xs.flatMap (fun x => (crossJoin (y :: rest)).map (fun t => x ++ "_" ++ t))

/-- Spec-side description of a factor's cardinality: the number of
distinct values the factor takes in the data, the synthetic factor
`"flat"` counting as exactly one level. -/
def factorCard (data : Data) (c : String) : Nat :=
  if c = "flat" then 1
  else
    match alookup c data.cols with
    | some col => distinctCount col
    | none => 0

/-- Spec-side description of level construction as the specification
words it: coerce the distinct values to strings first, then sort the
strings ascending. -/
def levelsCoerceThenSort : Col → List String
  | .intCol xs => sortedUnique strLeB (xs.map (fun n => toString n))
  | .strCol xs => sortedUnique strLeB xs

/-- `ssd_info` as stored in `fitparams` (CORE.py line 337):
`[ssd, nssd, nss, nss_per_ssd, ssd_ix]`. -/
structure SSDInfo where
  ssd : List (List ℚ)
  nssd : Nat
  nss : Nat
  nss_per_ssd : Nat
  ssd_ix : List (List Nat)
  deriving DecidableEq, Repr

/-- Elementwise sum of two equally long vectors. -/
def addVec (a b : List ℚ) : List ℚ := List.zipWith (· + ·) a b

/-- `np.mean(ssd, axis=0, keepdims=True)` without the kept dimension:
the column-wise means of a rectangular matrix (sum the rows elementwise,
divide by the row count). -/
def colMeans (m : List (List ℚ)) : List ℚ :=
  match m with
  | [] => []
  | r :: rs => (rs.foldl addVec r).map (fun s => s / (m.length : ℚ))

/-- Core of `__set_ssd_info__` (CORE.py lines 329-337), applied after the
by-condition grouping of the SSD dataframe: when `nlevels == 1` the SSD
matrix is averaged across rows; `nss = int(.5 * ntrials)`;
`nss_per_ssd = int(nss / nssd)` (a `ZeroDivisionError` when there is no
SSD column); `ssd_ix` repeats `np.arange(nssd)` on every row. -/
def ssdInfoCore (ssd0 : List (List ℚ)) (nlevels ntrials : Nat) :
    Except PyError SSDInfo :=
  let ssd := if nlevels = 1 then [colMeans ssd0] else ssd0
  let nssd := (ssd.headD []).length
  let nss := ntrials / 2
  if nssd = 0 then .error .zeroDivisionError
  else
    .ok { ssd := ssd
          nssd := nssd
          nss := nss
          nss_per_ssd := nss / nssd
          ssd_ix := ssd.map (fun _ => List.range nssd) }

/-- The grouped SSD tables derived from `self.ssdDF`: the by-condition
mean matrix used when `fit_on == 'average'`, and one such matrix per
subject used when `fit_on == 'subjects'` (the pandas row selection and
`groupby(...).mean()` of CORE.py lines 318-324, precomputed). -/
structure SsdTables where
  avg : List (List ℚ)
  subj : List (List (List ℚ))
  deriving DecidableEq, Repr

/-- The `fitparams` record (CORE.py lines 130-153).  The keys carried
here are the ones the claims exercise; the remaining keys of the default
dict (`clmap`, `pcmap`, `depends_on`, `ssd_method`, `model_id`, `learn`,
`inits`, `tb`) are copied verbatim from the model state at first call and
merged like any other key, so they add nothing to the modelled behavior.
`y`/`wts` are absent from the default dict and only written by
`update_data`, hence `Option`; `idx` is overwritten by `update_data`
before it is ever read, so it is carried as its string form. -/
structure FitParams where
  ix : Nat
  ntrials : Nat
  si : ℚ
  dt : ℚ
  tol : ℚ
  method : String
  maxfev : Nat
  maxiter : Nat
  kind : String
  quantiles : List ℚ
  fit_on : String
  nlevels : Nat
  nidx : Nat
  idx : String
  y : Option (List ℚ)
  wts : Option (List ℚ)
  ssd_info : Option SSDInfo
  deriving DecidableEq, Repr

/-- The model-object state that `set_fitparams` / `update_data` /
`__set_ssd_info__` read and write (the relevant attributes of
`RADDCore`). -/
structure RADDState where
  observed : List (List ℚ)
  observed_flat : List (List ℚ)
  cond_wts : List (List ℚ)
  flat_wts : List (List ℚ)
  idx : List PyVal
  nidx : Nat
  fit_on : String
  kind : String
  quantiles : List ℚ
  nlevels : Nat
  ssdData : Option SsdTables
  fitparams : Option FitParams
  deriving DecidableEq, Repr

/-- The keyword overrides passed to `set_fitparams` that merge directly
into the record (CORE.py lines 156-157).  The special keys `'quantiles'`
and `'depends_on'` additionally trigger dataframe rebuilds through the
`DataHandler` component, which lives in `radd/dfhandler.py`, outside the
sources; they are outside this record model. -/
structure FitKwargs where
  ix : Option Nat
  ntrials : Option Nat
  tol : Option ℚ
  nlevels : Option Nat
  y : Option (List ℚ)
  wts : Option (List ℚ)
  deriving DecidableEq, Repr

/-- The empty keyword dictionary. -/
def noKwargs : FitKwargs :=
  { ix := none, ntrials := none, tol := none, nlevels := none,
    y := none, wts := none }

/-- `for kw_arg, kw_val in kwargs.items(): self.fitparams[kw_arg] = kw_val`
(CORE.py lines 156-157). -/
def applyKwargs (fp : FitParams) (kw : FitKwargs) : FitParams :=
  { fp with
    ix := kw.ix.getD fp.ix
    ntrials := kw.ntrials.getD fp.ntrials
    tol := kw.tol.getD fp.tol
    nlevels := kw.nlevels.getD fp.nlevels
    y := match kw.y with | some v => some v | none => fp.y
    wts := match kw.wts with | some v => some v | none => fp.wts }

/-- The default `fitparams` record built on the first call
(CORE.py lines 130-153); `self.idx[0]` raises `IndexError` when there are
no subjects. -/
def default_fitparams (st : RADDState) : Except PyError FitParams :=
  match pyGet st.idx 0 with
  | .error e => .error e
  | .ok idx0 =>
    .ok { ix := 0
          ntrials := 20000
          si := 1/10
          dt := 1/500
          tol := 1/10^30
          method := "nelder"
          maxfev := 450
          maxiter := 450
          kind := st.kind
          quantiles := st.quantiles
          fit_on := st.fit_on
          nlevels := 1
          nidx := st.nidx
          idx := pyStr idx0
          y := none
          wts := none
          ssd_info := none }

/-- `update_data` (CORE.py lines 212-227): select the `ix`'th `y`/`wts`
arrays from the conditional lists when `nlevels > 1` and from the flat
lists otherwise, and set the active subject identifier. -/
def update_data (st : RADDState) (nlevels : Nat) : Except PyError RADDState :=
  match st.fitparams with
  | none => .error .attributeError
  | some fp =>
    let i := fp.ix
    let yw : Except PyError (List ℚ × List ℚ) :=
      if nlevels > 1 then
        match pyGet st.observed i with
        | .error e => .error e
        | .ok y =>
          match pyGet st.cond_wts i with
          | .error e => .error e
          | .ok w => .ok (y, w)
      else
        match pyGet st.observed_flat i with
        | .error e => .error e
        | .ok y =>
          match pyGet st.flat_wts i with
          | .error e => .error e
          | .ok w => .ok (y, w)
    match yw with
    | .error e => .error e
    | .ok yw =>
      let fp1 := { fp with y := some yw.1, wts := some yw.2 }
      if st.fit_on = "subjects" then
        match pyGet st.idx i with
        | .error e => .error e
        | .ok v => .ok { st with fitparams := some { fp1 with idx := pyStr v } }
      else .ok { st with fitparams := some { fp1 with idx := "avg" } }

/-- `__set_ssd_info__` (CORE.py lines 314-337) at the state level: pick
the grouped SSD matrix for the current mode and active index, then apply
`ssdInfoCore` and store the result in `fitparams`. -/
def set_ssd_info (st : RADDState) : Except PyError RADDState :=
  match st.fitparams, st.ssdData with
  | some fp, some tabs =>
    let picked : Except PyError (List (List ℚ)) :=
      if st.fit_on = "average" then .ok tabs.avg
      else
        match pyGet st.idx fp.ix with
        | .error e => .error e
        | .ok _ => pyGet tabs.subj fp.ix
    match picked with
    | .error e => .error e
    | .ok ssd0 =>
      match ssdInfoCore ssd0 fp.nlevels fp.ntrials with
      | .error e => .error e
      | .ok info =>
        .ok { st with fitparams := some { fp with ssd_info := some info } }
  | _, _ => .error .attributeError

/-- The tail of `set_fitparams` (CORE.py lines 168-179), shared by the
first-call and later-call paths: install the (default or merged) record,
apply `force` (`'cond'` pins `nlevels` to the condition count, `'flat'`
pins it to 1), reselect the active data through `update_data`, and
recompute `ssd_info` when SSD data is present.  (The trailing Optimizer
notification touches only the external `opt`/`sim` collaborators.) -/
def fitTail (st2 : RADDState) (nl : Nat) : Except PyError RADDState :=
  match update_data st2 nl with
  | .error e => .error e
  | .ok st3 =>
    match st3.ssdData with
    | some _ => set_ssd_info st3
    | none => .ok st3

def fitPipeline (st : RADDState) (force : Option String) (fpm : FitParams) :
    Except PyError RADDState :=
  let fp2 :=
    if force = some "cond" then { fpm with nlevels := st.nlevels }
    else if force = some "flat" then { fpm with nlevels := 1 }
    else fpm
  fitTail { st with fitparams := some fp2 } fp2.nlevels

/-- `set_fitparams` (CORE.py lines 125-179): on the first call build the
default record, IGNORING the passed overrides (they are only merged in
the `else` branch); on later calls merge the overrides in place.  Either
way the call then runs the shared tail `fitPipeline`. -/
def set_fitparams (st : RADDState) (force : Option String) (kw : FitKwargs) :
    Except PyError RADDState :=
  match st.fitparams with
  | none =>
    match default_fitparams st with
    | .error e => .error e
    | .ok fp => fitPipeline st force fp
  | some fp => fitPipeline st force (applyKwargs fp kw)

/-- `dict(pairs)` built left to right: a later occurrence of a key
overrides the value of an earlier one. -/
def dictInsert {α : Type} (d : List (String × α)) (k : String) (v : α) :
    List (String × α) :=
  if (alookup k d).isSome then
    d.map (fun kv => if kv.1 = k then (k, v) else kv)
  else d ++ [(k, v)]

/-- `dict(zip(keys, values))`. -/
def dictOfPairs {α : Type} (l : List (String × α)) : List (String × α) :=
  l.foldl (fun d kv => dictInsert d kv.1 kv.2) []

/-- The write half of `params_io` (utils.py lines 250-251):
`pd.Series(p).to_csv(...)`.  Building a Series from a dict sorts the
keys; each (name, value) pair becomes one CSV row.  The CSV cell round
trip of the numeric value itself is carried exactly, which is what the
specification's "up to floating-point representation" licenses. -/
def params_io_w (p : List (String × ℚ)) : List (String × ℚ) :=
  sortLe (fun a b => strLeB a.1 b.1) p

/-- The read half of `params_io` (utils.py lines 252-255):
`dict(zip(ps[0], ps[1]))` over the rows read back. -/
def params_io_r (rows : List (String × ℚ)) : List (String × ℚ) :=
  dictOfPairs rows

/-- The `finfo` argument of `extract_popt_fitinfo`: `None` (its default)
or a mapping of parameter names to optimized values. -/
inductive FinfoArg where
  | noneV
  | dictV (entries : List (String × ℚ))
  deriving DecidableEq, Repr

/-- `extract_popt_fitinfo` (utils.py lines 226-245).  Its first statement
`finfo = dict(deepcopy(finfo))` raises `TypeError` when `finfo` is left
`None`; otherwise the next statement `plist = list(inits)` reads the name
`inits`, which is bound neither as a parameter (the parameter is
`plist`, reassigned before use) nor anywhere in the `utils` module, so a
`NameError` is raised and the `popt` dictionary in the remaining lines is
never built or returned. -/
def extract_popt_fitinfo (finfo : FinfoArg)
    (plist : Option (List String))
    (pcmap : Option (List (String × List String))) :
    Except PyError (List (String × List ℚ)) :=
  match finfo, plist, pcmap with
  | .noneV, _, _ => .error .typeError
  | .dictV _, _, _ => .error (.nameError "inits")

/-! Concrete instances used to exercise the theorems: the specification's
running scenario (2 subjects × 2 conditions "easy"/"hard"), a dataset
with numeric factor levels, and small fit states. -/

/-- Two subjects × two conditions, a few trials. -/
def exData : Data :=
  { nrows := 4
    cols := [("idx", .intCol [1, 1, 2, 2]),
             ("condition", .strCol ["easy", "hard", "easy", "hard"]),
             ("response", .intCol [1, 0, 1, 1])] }

/-- `depends_on={'v':'condition'}`. -/
def exDep : List (String × Dep) := [("v", .single "condition")]

/-- The state `set_conditions exData exDep` computes. -/
def exSt : CondState :=
  { data := exData
    depends_on := exDep
    conds := ["condition"]
    nconds := 1
    is_flat := false
    clmap := [("condition", ["easy", "hard"])]
    cond_matrix := [2]
    nlevels := 2
    pcmap := [("v", ["v_easy", "v_hard"])]
    groups := ["idx", "condition"] }

/-- A dataset whose condition factor takes the numeric values 10 and 2. -/
def numData : Data :=
  { nrows := 4
    cols := [("idx", .intCol [1, 1, 2, 2]),
             ("difficulty", .intCol [10, 2, 10, 2])] }

/-- The state `set_conditions numData [("v", single "difficulty")]`
computes: the levels are numerically sorted BEFORE the string coercion,
so "2" precedes "10". -/
def numSt : CondState :=
  { data := numData
    depends_on := [("v", .single "difficulty")]
    conds := ["difficulty"]
    nconds := 1
    is_flat := false
    clmap := [("difficulty", ["2", "10"])]
    cond_matrix := [2]
    nlevels := 2
    pcmap := [("v", ["v_2", "v_10"])]
    groups := ["idx", "difficulty"] }

/-- A small initialized fitparams record. -/
def fpA : FitParams :=
  { ix := 0
    ntrials := 20000
    si := 1/10
    dt := 1/500
    tol := 1/10^30
    method := "nelder"
    maxfev := 450
    maxiter := 450
    kind := "xdpm"
    quantiles := [1/10]
    fit_on := "subjects"
    nlevels := 1
    nidx := 1
    idx := "101"
    y := none
    wts := none
    ssd_info := none }

/-- A small initialized model state with one subject. -/
def stA : RADDState :=
  { observed := [[3, 4]]
    observed_flat := [[1, 2]]
    cond_wts := [[5, 6]]
    flat_wts := [[7, 8]]
    idx := [.intV 101]
    nidx := 1
    fit_on := "subjects"
    kind := "xdpm"
    quantiles := [1/10]
    nlevels := 2
    ssdData := none
    fitparams := some fpA }

/-- `stA` with the active index pushed out of bounds. -/
def stBad : RADDState := { stA with fitparams := some { fpA with ix := 5 } }

/-- `stA` before `fitparams` has ever been initialized (averaging mode). -/
def stU : RADDState := { stA with fitparams := none, fit_on := "average" }

/-- A keyword override that sets only `ntrials`. -/
def kwU : FitKwargs := { noKwargs with ntrials := some 1000 }

/-- A parameter dictionary for the persistence round trip. -/
def pEx : List (String × ℚ) := [("v", 11/10), ("a", 2/5), ("tr", 285/1000)]

/-- The `ssd_info` record for the specification's SSD scenario
(delays 200/250/300 ms, `ntrials=20000`, flat fit). -/
def ssdInfoEx : SSDInfo :=
  { ssd := [[1/5, 1/4, 3/10]]
    nssd := 3
    nss := 10000
    nss_per_ssd := 3333
    ssd_ix := [[0, 1, 2]] }

/-- The state `set_fitparams stA none kwU` produces: `ntrials` merged in,
`y`/`wts`/`idx` reselected for index 0. -/
def st1Ex : RADDState :=
  { stA with
    fitparams := some { fpA with
      ntrials := 1000
      y := some [1, 2]
      wts := some [7, 8]
      idx := "101" } }

/-! Infrastructure lemmas about the list/dict/sort primitives. -/

theorem insertLe_perm {α : Type} (le : α → α → Bool) (x : α) :
    ∀ l : List α, List.Perm (insertLe le x l) (x :: l)
  | [] => List.Perm.refl _
  | y :: ys => by
    simp only [insertLe]
    split
    · exact List.Perm.refl _
    · exact ((insertLe_perm le x ys).cons y).trans (List.Perm.swap x y ys)

theorem sortLe_perm {α : Type} (le : α → α → Bool) :
    ∀ l : List α, List.Perm (sortLe le l) l
  | [] => List.Perm.refl _
  | x :: xs =>
    (insertLe_perm le x (sortLe le xs)).trans ((sortLe_perm le xs).cons x)

theorem mem_sortedUnique {α : Type} [DecidableEq α] (le : α → α → Bool)
    (xs : List α) (x : α) : x ∈ sortedUnique le xs ↔ x ∈ xs := by
  rw [sortedUnique, (sortLe_perm le xs.dedup).mem_iff, List.mem_dedup]

theorem alookup_append_none {α : Type} {k : String} {l1 : List (String × α)}
    (l2 : List (String × α)) (h : alookup k l1 = none) :
    alookup k (l1 ++ l2) = alookup k l2 := by
  induction l1 with
  | nil => rfl
  | cons kv rest ih =>
    by_cases hk : kv.1 = k
    · simp [alookup, hk] at h
    · simp only [alookup, hk, if_false, List.cons_append] at h ⊢
      exact ih h

theorem alookup_append_some {α : Type} {k : String} {v : α}
    {l1 : List (String × α)} (l2 : List (String × α))
    (h : alookup k l1 = some v) : alookup k (l1 ++ l2) = some v := by
  induction l1 with
  | nil => cases h
  | cons kv rest ih =>
    by_cases hk : kv.1 = k
    · simp only [alookup, hk, if_true, List.cons_append] at h ⊢
      exact h
    · simp only [alookup, hk, if_false, List.cons_append] at h ⊢
      exact ih h

theorem alookup_eq_none_iff {α : Type} {k : String} {l : List (String × α)} :
    alookup k l = none ↔ k ∉ l.map Prod.fst := by
  induction l with
  | nil => simp [alookup]
  | cons kv rest ih =>
    by_cases hk : kv.1 = k
    · simp [alookup, hk]
    · simp only [alookup, hk, if_false, List.map_cons, List.mem_cons]
      rw [ih]
      constructor
      · intro h hc
        rcases hc with hc | hc
        · exact hk (hc ▸ rfl)
        · exact h hc
      · intro h hc
        exact h (Or.inr hc)

theorem alookup_mem {α : Type} {k : String} {v : α} :
    ∀ {l : List (String × α)}, alookup k l = some v → (k, v) ∈ l := by
  intro l
  induction l with
  | nil => intro h; cases h
  | cons kv rest ih =>
    intro h
    rcases kv with ⟨a, b⟩
    by_cases hk : a = k
    · subst hk
      simp only [alookup, if_pos rfl] at h
      cases h
      exact List.mem_cons_self _ _
    · simp only [alookup, hk, if_false] at h
      exact List.mem_cons_of_mem _ (ih h)

theorem mem_alookup {α : Type} {k : String} {v : α} :
    ∀ {l : List (String × α)}, (l.map Prod.fst).Nodup → (k, v) ∈ l →
      alookup k l = some v := by
  intro l
  induction l with
  | nil => intro _ h; cases h
  | cons kv rest ih =>
    intro hnd h
    rcases List.mem_cons.mp h with heq | hmem
    · rw [← heq]
      simp [alookup]
    · have hk : kv.1 ≠ k := by
        intro hk
        have : k ∈ rest.map Prod.fst :=
          List.mem_map.mpr ⟨(k, v), hmem, rfl⟩
        exact (List.nodup_cons.mp hnd).1 (hk ▸ this)
      simp only [alookup, hk, if_false]
      exact ih (List.nodup_cons.mp hnd).2 hmem

theorem alookup_perm {α : Type} {l l2 : List (String × α)}
    (hp : List.Perm l l2)
    (hnd : (l.map Prod.fst).Nodup) (k : String) :
    alookup k l = alookup k l2 := by
  have hnd2 : (l2.map Prod.fst).Nodup := ((hp.map Prod.fst).nodup_iff).mp hnd
  cases hv : alookup k l with
  | none =>
    have hk : k ∉ l2.map Prod.fst := fun hm =>
      alookup_eq_none_iff.mp hv (((hp.map Prod.fst).mem_iff).mpr hm)
    exact (alookup_eq_none_iff.mpr hk).symm
  | some v =>
    exact (mem_alookup hnd2 (hp.mem_iff.mp (alookup_mem hv))).symm

theorem alookup_overwrite_self (nm : String) (c : Col) :
    ∀ (cols : List (String × Col)), (alookup nm cols).isSome →
      alookup nm (cols.map (fun kv => if kv.1 = nm then (nm, c) else kv)) =
        some c := by
  intro cols
  induction cols with
  | nil => intro h; cases h
  | cons kv rest ih =>
    intro h
    by_cases hk : kv.1 = nm
    · simp [alookup, hk]
    · simp only [alookup, hk, if_false] at h
      simp only [List.map_cons, hk, if_false]
      simp only [alookup, hk, if_false]
      exact ih h

theorem alookup_setCol_self (cols : List (String × Col)) (nm : String)
    (c : Col) : alookup nm (setCol cols nm c) = some c := by
  by_cases h : (alookup nm cols).isSome
  · rw [setCol, if_pos h]
    exact alookup_overwrite_self nm c cols h
  · rw [setCol, if_neg h,
      alookup_append_none _ (Option.not_isSome_iff_eq_none.mp h)]
    simp [alookup]

theorem alookup_overwrite_ne (nm : String) (c : Col) {k : String}
    (hne : k ≠ nm) :
    ∀ (cols : List (String × Col)),
      alookup k (cols.map (fun kv => if kv.1 = nm then (nm, c) else kv)) =
        alookup k cols := by
  intro cols
  induction cols with
  | nil => rfl
  | cons kv rest ih =>
    by_cases hk : kv.1 = nm
    · have h1 : ¬((nm, c).1 = k) := fun h => hne h.symm
      have h2 : ¬(kv.1 = k) := fun h => hne (by rw [← h, hk])
      simp only [List.map_cons, hk, if_true, alookup, h1, h2, if_false, ih]
    · simp only [List.map_cons, hk, if_false, alookup, ih]

theorem alookup_setCol_ne (cols : List (String × Col)) (nm : String)
    (c : Col) {k : String} (hne : k ≠ nm) :
    alookup k (setCol cols nm c) = alookup k cols := by
  by_cases h : (alookup nm cols).isSome
  · rw [setCol, if_pos h]
    exact alookup_overwrite_ne nm c hne cols
  · rw [setCol, if_neg h]
    cases hv : alookup k cols with
    | none =>
      rw [alookup_append_none _ hv]
      have h1 : ¬((nm, c).1 = k) := fun hh => hne hh.symm
      simp [alookup, h1]
    | some v => exact alookup_append_some _ hv

theorem dedup_replicate_pos {α : Type} [DecidableEq α] (a : α) :
    ∀ n : Nat, 0 < n → (List.replicate n a).dedup = [a] := by
  intro n
  induction n with
  | zero => intro h; omega
  | succ m ih =>
    intro _
    rcases Nat.eq_zero_or_pos m with hm | hm
    · subst hm; simp
    · rw [List.replicate_succ,
        List.dedup_cons_of_mem (List.mem_replicate.mpr ⟨Nat.pos_iff_ne_zero.mp hm, rfl⟩)]
      exact ih hm

theorem colLevels_length (col : Col) :
    (colLevels col).length = distinctCount col := by
  cases col with
  | intCol xs =>
    simp [colLevels, distinctCount, sortedUnique, (sortLe_perm intLeB _).length_eq]
  | strCol xs =>
    simp [colLevels, distinctCount, sortedUnique, (sortLe_perm strLeB _).length_eq]

theorem exceptMapM_ok_mem {α β : Type} {f : α → Except PyError β} :
    ∀ {l : List α} {ys : List β}, exceptMapM f l = .ok ys →
      ∀ x ∈ l, ∃ y, f x = .ok y := by
  intro l
  induction l with
  | nil => intro ys _ x hx; cases hx
  | cons a rest ih =>
    intro ys h x hx
    simp only [exceptMapM] at h
    cases hfa : f a with
    | error e => rw [hfa] at h; cases h
    | ok y =>
      rw [hfa] at h
      cases hrest : exceptMapM f rest with
      | error e => rw [hrest] at h; cases h
      | ok ys0 =>
        rcases List.mem_cons.mp hx with hx | hx
        · exact ⟨y, hx ▸ hfa⟩
        · exact ih hrest x hx

theorem exceptMapM_error_mem {α β : Type} {f : α → Except PyError β} :
    ∀ {l : List α} {e : PyError}, exceptMapM f l = .error e →
      ∃ x ∈ l, f x = .error e := by
  intro l
  induction l with
  | nil => intro e h; cases h
  | cons a rest ih =>
    intro e h
    simp only [exceptMapM] at h
    cases hfa : f a with
    | error e0 =>
      rw [hfa] at h
      cases h
      exact ⟨a, List.mem_cons_self a rest, hfa⟩
    | ok y =>
      rw [hfa] at h
      cases hrest : exceptMapM f rest with
      | error e0 =>
        rw [hrest] at h
        cases h
        rcases ih hrest with ⟨x, hx, hfx⟩
        exact ⟨x, List.mem_cons_of_mem _ hx, hfx⟩
      | ok ys0 => rw [hrest] at h; cases h

theorem exceptMapM_ok_length {α β : Type} {f : α → Except PyError β} :
    ∀ {l : List α} {ys : List β}, exceptMapM f l = .ok ys →
      ys.length = l.length := by
  intro l
  induction l with
  | nil => intro ys h; cases h; rfl
  | cons a rest ih =>
    intro ys h
    simp only [exceptMapM] at h
    cases hfa : f a with
    | error e => rw [hfa] at h; cases h
    | ok y =>
      rw [hfa] at h
      cases hrest : exceptMapM f rest with
      | error e => rw [hrest] at h; cases h
      | ok ys0 =>
        rw [hrest] at h
        cases h
        simp [ih hrest]

theorem exceptMapM_ok_map {α β : Type} {f : α → Except PyError β}
    {g : α → β} :
    ∀ {l : List α} {ys : List β}, exceptMapM f l = .ok ys →
      (∀ x ∈ l, f x = .ok (g x)) → ys = l.map g := by
  intro l
  induction l with
  | nil => intro ys h _; cases h; rfl
  | cons a rest ih =>
    intro ys h hg
    simp only [exceptMapM] at h
    cases hfa : f a with
    | error e => rw [hfa] at h; cases h
    | ok y =>
      rw [hfa] at h
      cases hrest : exceptMapM f rest with
      | error e => rw [hrest] at h; cases h
      | ok ys0 =>
        rw [hrest] at h
        cases h
        have hy : y = g a := by
          have := hg a (List.mem_cons_self a rest)
          rw [hfa] at this
          exact Except.ok.inj this
        rw [hy, ih hrest (fun x hx => hg x (List.mem_cons_of_mem _ hx))]
        rfl

theorem exceptMapM_ok_zip_mem {α β : Type} {f : α → Except PyError β} :
    ∀ {l : List α} {ys : List β}, exceptMapM f l = .ok ys →
      ∀ p ∈ l.zip ys, f p.1 = .ok p.2 := by
  intro l
  induction l with
  | nil => intro ys _ p hp; simp at hp
  | cons a rest ih =>
    intro ys h p hp
    simp only [exceptMapM] at h
    cases hfa : f a with
    | error e => rw [hfa] at h; cases h
    | ok y =>
      rw [hfa] at h
      cases hrest : exceptMapM f rest with
      | error e => rw [hrest] at h; cases h
      | ok ys0 =>
        rw [hrest] at h
        cases h
        rcases List.mem_cons.mp hp with hp | hp
        · rw [hp]; exact hfa
        · exact ih hrest p hp

theorem pyGet_ok {α : Type} (l : List α) (i : Nat) (h : i < l.length) :
    pyGet l i = .ok (l.get ⟨i, h⟩) := by
  simp [pyGet, List.getElem?_eq_getElem h]

theorem pyGet_err {α : Type} (l : List α) (i : Nat) (h : l.length ≤ i) :
    pyGet l i = .error .indexError := by
  simp [pyGet, List.getElem?_eq_none_iff.mpr h]

theorem getD_absorb {α : Type} (o : Option α) (a : α) :
    o.getD (o.getD a) = o.getD a := by
  cases o <;> rfl

theorem joinUnder_cons (x : String) {t : List String} (h : t ≠ []) :
    joinUnder (x :: t) = x ++ "_" ++ joinUnder t := by
  cases t with
  | nil => exact absurd rfl h
  | cons a r => rfl

theorem pyProduct_cons_ne_nil {α : Type} {xs : List α} {rest : List (List α)} :
    ∀ t ∈ pyProduct (xs :: rest), t ≠ [] := by
  intro t ht
  simp only [pyProduct, List.mem_flatMap, List.mem_map] at ht
  rcases ht with ⟨x, _, tail, _, htl⟩
  rw [← htl]
  exact List.cons_ne_nil x tail

theorem pyProduct_cons_eq {α : Type} (xs : List α) (rest : List (List α)) :
    pyProduct (xs :: rest) =
      xs.flatMap (fun x => (pyProduct rest).map (fun tail => x :: tail)) := rfl

theorem crossJoin_cons_eq (xs y : List String) (rest : List (List String)) :
    crossJoin (xs :: y :: rest) =
      xs.flatMap (fun x => (crossJoin (y :: rest)).map (fun t => x ++ "_" ++ t)) :=
  rfl

theorem joinUnder_pyProduct :
    ∀ ls : List (List String), ls ≠ [] →
      (pyProduct ls).map joinUnder = crossJoin ls := by
  intro ls
  match ls with
  | [] => intro h; exact absurd rfl h
  | [xs] =>
    intro _
    simp [pyProduct, crossJoin, joinUnder, List.map_flatMap]
  | xs :: y :: rest =>
    intro _
    have ih := joinUnder_pyProduct (y :: rest) (List.cons_ne_nil y rest)
    rw [pyProduct_cons_eq, crossJoin_cons_eq, List.map_flatMap]
    have hfun : ∀ x : String,
        ((pyProduct (y :: rest)).map (fun tail => x :: tail)).map joinUnder
          = (crossJoin (y :: rest)).map (fun t => x ++ "_" ++ t) := by
      intro x
      rw [List.map_map, ← ih, List.map_map]
      refine List.map_congr_left ?_
      intro t ht
      exact joinUnder_cons x (pyProduct_cons_ne_nil t ht)
    simp only [hfun]

theorem format_pcmap_alookup
    {clmap : List (String × List String)} {dep : List (String × Dep)}
    {pcm : List (String × List String)} (h : format_pcmap clmap dep = .ok pcm)
    {p : String} {d : Dep} (hd : alookup p dep = some d) :
    ∃ lvls, paramLevels clmap d = .ok lvls ∧
      alookup p pcm = some (lvls.map (fun lvl => p ++ "_" ++ lvl)) := by
  induction dep generalizing pcm with
  | nil => cases hd
  | cons qd rest ih =>
    simp only [format_pcmap, exceptMapM] at h
    cases hq : pcEntry clmap qd with
    | error e => rw [hq] at h; cases h
    | ok entry =>
      rw [hq] at h
      cases hrest : exceptMapM (pcEntry clmap) rest with
      | error e => rw [hrest] at h; cases h
      | ok pcmrest =>
        rw [hrest] at h
        cases h
        simp only [pcEntry] at hq
        cases hlv : paramLevels clmap qd.2 with
        | error e => rw [hlv] at hq; cases hq
        | ok clevels =>
          rw [hlv] at hq
          cases hq
          by_cases hk : qd.1 = p
          · simp only [alookup, hk, if_pos] at hd
            cases hd
            refine ⟨clevels, hlv, ?_⟩
            simp [alookup, hk]
          · simp only [alookup, hk, if_false] at hd
            rcases ih hrest hd with ⟨lvls, h1, h2⟩
            exact ⟨lvls, h1, by simp only [alookup, hk, if_false]; exact h2⟩

theorem foldl_dictInsert_disjoint {α : Type} :
    ∀ (l d : List (String × α)),
      (∀ kv ∈ l, alookup kv.1 d = none) → (l.map Prod.fst).Nodup →
      l.foldl (fun d0 kv => dictInsert d0 kv.1 kv.2) d = d ++ l := by
  intro l
  induction l with
  | nil => intro d _ _; simp
  | cons kv rest ih =>
    intro d hdisj hnd
    have h0 : alookup kv.1 d = none := hdisj kv (List.mem_cons_self kv rest)
    have h1 : dictInsert d kv.1 kv.2 = d ++ [kv] := by
      simp [dictInsert, h0]
    have hdisj2 : ∀ kv2 ∈ rest, alookup kv2.1 (d ++ [kv]) = none := by
      intro kv2 hkv2
      rw [alookup_append_none _ (hdisj kv2 (List.mem_cons_of_mem _ hkv2))]
      have hne : ¬(kv.1 = kv2.1) := by
        intro hc
        exact (List.nodup_cons.mp hnd).1
          (hc ▸ List.mem_map.mpr ⟨kv2, hkv2, rfl⟩)
      simp [alookup, hne]
    simp only [List.foldl_cons, h1]
    rw [ih (d ++ [kv]) hdisj2 (List.nodup_cons.mp hnd).2]
    simp

theorem dictOfPairs_eq_self {α : Type} {l : List (String × α)}
    (hnd : (l.map Prod.fst).Nodup) : dictOfPairs l = l := by
  have := foldl_dictInsert_disjoint l [] (fun kv _ => rfl) hnd
  simpa [dictOfPairs] using this

/-! The claims. -/

/-- C1: for a parameter whose dependency is a single factor,
`__format_pcmap__` maps it to `["{param}_{level}"]` over that factor's
stored (sorted, string) levels; for a list-of-factors dependency it maps
it to names built from the full cross-product of the factors' levels in
factor-list order, with the level tags joined by `"_"`. -/
theorem pcmap_name_expansion (clmap : List (String × List String))
    (dep : List (String × Dep)) (pcm : List (String × List String))
    (p : String) (h : format_pcmap clmap dep = .ok pcm) :
    (∀ f lvls, alookup p dep = some (.single f) →
       alookup f clmap = some lvls →
       alookup p pcm = some (lvls.map (fun lvl => p ++ "_" ++ lvl))) ∧
    (∀ fs lvlss, alookup p dep = some (.multi fs) → fs ≠ [] →
       exceptMapM (clmapGet clmap) fs = .ok lvlss →
       alookup p pcm =
         some ((crossJoin lvlss).map (fun tag => p ++ "_" ++ tag))) := by
  constructor
  · intro f lvls hd hcl
    rcases format_pcmap_alookup h hd with ⟨lvls2, h1, h2⟩
    have : lvls2 = lvls := by
      simp only [paramLevels, clmapGet, hcl] at h1
      exact (Except.ok.inj h1).symm
    rw [h2, this]
  · intro fs lvlss hd hfs hmm
    rcases format_pcmap_alookup h hd with ⟨lvls2, h1, h2⟩
    have hlen : lvlss ≠ [] := by
      intro hc
      apply hfs
      have := exceptMapM_ok_length hmm
      rw [hc] at this
      simpa using (List.length_eq_zero.mp this.symm)
    have : lvls2 = crossJoin lvlss := by
      simp only [paramLevels, hmm] at h1
      rw [← joinUnder_pyProduct lvlss hlen]
      exact (Except.ok.inj h1).symm
    rw [h2, this]

/-- C1 witness: the specification's scenario `depends_on={'v':'condition'}`
with levels `["easy","hard"]` yields `pcmap['v'] == ['v_easy','v_hard']`,
and a two-factor list dependency yields the cross-product names. -/
theorem pcmap_name_expansion_witness :
    alookup "v" [("v", ["v_easy", "v_hard"])] =
      some (["easy", "hard"].map (fun lvl => "v" ++ "_" ++ lvl)) ∧
    alookup "v" [("v", ["v_a_hi", "v_a_lo", "v_b_hi", "v_b_lo"])] =
      some ((crossJoin [["a", "b"], ["hi", "lo"]]).map
        (fun tag => "v" ++ "_" ++ tag)) :=
  ⟨(pcmap_name_expansion [("condition", ["easy", "hard"])]
      [("v", .single "condition")] [("v", ["v_easy", "v_hard"])] "v" rfl).1
      "condition" ["easy", "hard"] rfl rfl,
   (pcmap_name_expansion [("cond", ["a", "b"]), ("reward", ["hi", "lo"])]
      [("v", .multi ["cond", "reward"])]
      [("v", ["v_a_hi", "v_a_lo", "v_b_hi", "v_b_lo"])] "v" rfl).2
      ["cond", "reward"] [["a", "b"], ["hi", "lo"]] rfl
      (by decide) rfl⟩

/-- C2: after a successful `set_conditions` on nonempty data, `nlevels`
equals the product over the referenced factors of the number of distinct
values each takes in the data (the sentinel factor `"flat"` contributing
exactly one level), and `cond_matrix` holds the per-factor
cardinalities. -/
theorem set_conditions_nlevels (data : Data) (dep : List (String × Dep))
    (st : CondState) (hrows : 0 < data.nrows)
    (h : set_conditions data dep = .ok st) :
    st.cond_matrix = st.conds.map (factorCard data) ∧
    st.nlevels = (st.conds.map (factorCard data)).prod := by
  unfold set_conditions at h
  by_cases hdep : dep = []
  · rw [if_pos hdep] at h; cases h
  · rw [if_neg hdep] at h
    cases hmm : clevelsOf (dataWithFlat data ((condsOf dep).contains "flat"))
        (condsOf dep) with
    | error e => rw [hmm] at h; cases h
    | ok clevels =>
      rw [hmm] at h
      dsimp only at h
      by_cases hcm : clevels.map List.length = []
      · rw [if_pos hcm] at h; cases h
      · rw [if_neg hcm] at h
        cases hpc : format_pcmap ((condsOf dep).zip clevels) dep with
        | error e => rw [hpc] at h; cases h
        | ok pcm =>
          rw [hpc] at h
          dsimp only at h
          cases h
          set conds := condsOf dep with hconds
          set data1 := dataWithFlat data (conds.contains "flat") with hdata1
          unfold clevelsOf at hmm
          have hpt : ∀ c ∈ conds, ∃ col, alookup c data1.cols = some col ∧
              ((dataGetCol data1 c).map colLevels :
                Except PyError (List String)) = .ok (colLevels col) := by
            intro c hc
            rcases exceptMapM_ok_mem hmm c hc with ⟨y, hy⟩
            cases halo : alookup c data1.cols with
            | none => simp [dataGetCol, halo, Except.map] at hy
            | some col => exact ⟨col, rfl, by simp [dataGetCol, halo, Except.map]⟩
          have hclev : clevels = conds.map (fun c =>
              match alookup c data1.cols with
              | some col => colLevels col
              | none => []) := by
            refine exceptMapM_ok_map hmm ?_
            intro c hc
            rcases hpt c hc with ⟨col, halo, hok⟩
            rw [halo]
            simp [dataGetCol, halo, Except.map]
          have hpoint : ∀ c ∈ conds,
              (match alookup c data1.cols with
                | some col => colLevels col
                | none => ([] : List String)).length = factorCard data c := by
            intro c hc
            rcases hpt c hc with ⟨col, halo, _⟩
            by_cases hcf : c = "flat"
            · subst hcf
              have hflat : conds.contains "flat" = true :=
                List.elem_eq_true_of_mem hc
              have halo2 : alookup "flat" data1.cols =
                  some (.strCol (List.replicate data.nrows "flat")) := by
                rw [hdata1, hflat]
                simp only [dataWithFlat, if_pos]
                exact alookup_setCol_self data.cols "flat" _
              rw [halo2, colLevels_length]
              simp [distinctCount, dedup_replicate_pos "flat" data.nrows hrows,
                factorCard]
            · have halo3 : alookup c data.cols = some col := by
                cases hb : conds.contains "flat"
                · rw [hdata1, hb] at halo
                  simpa [dataWithFlat] using halo
                · rw [hdata1, hb] at halo
                  simp only [dataWithFlat, if_pos] at halo
                  rwa [alookup_setCol_ne _ _ _ hcf] at halo
              rw [halo, colLevels_length]
              simp [factorCard, hcf, halo3]
          have hmain : clevels.map List.length = conds.map (factorCard data) := by
            rw [hclev, List.map_map]
            exact List.map_congr_left hpoint
          exact ⟨hmain, by rw [List.prod_eq_foldl, hmain]⟩

/-- C2 witness: the specification's scenario (2 subjects × 2 conditions),
`depends_on={'v':'condition'}` gives `cond_matrix == [2]` and
`nlevels == 2`. -/
theorem set_conditions_nlevels_witness :
    0 < exData.nrows ∧
    (exSt.cond_matrix = exSt.conds.map (factorCard exData) ∧
     exSt.nlevels = (exSt.conds.map (factorCard exData)).prod) :=
  ⟨by decide, set_conditions_nlevels exData exDep exSt (by decide) rfl⟩

/-- C3 counterexample: with numeric factor values {10, 2}, the code
stores the levels `["2", "10"]` (numeric sort happens BEFORE the string
coercion, CORE.py lines 272-273), whereas sorting ascending AFTER the
coercion — as the claim states — would give `["10", "2"]`. -/
theorem clmap_sorted_after_coercion_fails :
    set_conditions numData [("v", .single "difficulty")] = .ok numSt ∧
    alookup "difficulty" numSt.clmap = some ["2", "10"] ∧
    levelsCoerceThenSort (Col.intCol [10, 2, 10, 2]) = ["10", "2"] ∧
    alookup "difficulty" numSt.clmap ≠
      some (levelsCoerceThenSort (Col.intCol [10, 2, 10, 2])) :=
  ⟨rfl, rfl, by decide, by decide⟩

/-- C3 amended: the levels stored in `clmap` are the factor's distinct
data values sorted ascending in the column's NATIVE order and then
coerced to strings (`colLevels`); only for string-valued factors does
this coincide with sorting after the coercion. -/
theorem clmap_levels_native_sort (data : Data) (dep : List (String × Dep))
    (st : CondState) (h : set_conditions data dep = .ok st) :
    ∀ c lvls, (c, lvls) ∈ st.clmap →
      ∃ col, alookup c st.data.cols = some col ∧ lvls = colLevels col ∧
        (∀ xs, col = Col.strCol xs → lvls = levelsCoerceThenSort col) := by
  unfold set_conditions at h
  by_cases hdep : dep = []
  · rw [if_pos hdep] at h; cases h
  · rw [if_neg hdep] at h
    cases hmm : clevelsOf (dataWithFlat data ((condsOf dep).contains "flat"))
        (condsOf dep) with
    | error e => rw [hmm] at h; cases h
    | ok clevels =>
      rw [hmm] at h
      dsimp only at h
      by_cases hcm : clevels.map List.length = []
      · rw [if_pos hcm] at h; cases h
      · rw [if_neg hcm] at h
        cases hpc : format_pcmap ((condsOf dep).zip clevels) dep with
        | error e => rw [hpc] at h; cases h
        | ok pcm =>
          rw [hpc] at h
          dsimp only at h
          cases h
          unfold clevelsOf at hmm
          intro c lvls hmem
          have hfc := exceptMapM_ok_zip_mem hmm (c, lvls) hmem
          cases halo : alookup c
              (dataWithFlat data ((condsOf dep).contains "flat")).cols with
          | none =>
            have hdg : dataGetCol
                (dataWithFlat data ((condsOf dep).contains "flat")) c =
                  .error (.keyError c) := by
              unfold dataGetCol
              rw [halo]
            rw [hdg] at hfc
            simp [Except.map] at hfc
          | some col =>
            have hdg : dataGetCol
                (dataWithFlat data ((condsOf dep).contains "flat")) c =
                  .ok col := by
              unfold dataGetCol
              rw [halo]
            rw [hdg] at hfc
            simp only [Except.map] at hfc
            refine ⟨col, rfl, (Except.ok.inj hfc).symm, ?_⟩
            intro xs hxs
            subst hxs
            rw [← Except.ok.inj hfc]
            rfl

/-- C3 amended witness: for the string-valued factor "condition" the
stored levels are the sorted coerced levels either way. -/
theorem clmap_levels_native_sort_witness :
    ("condition", ["easy", "hard"]) ∈ exSt.clmap ∧
    (∃ col, alookup "condition" exSt.data.cols = some col ∧
      ["easy", "hard"] = colLevels col ∧
      (∀ xs, col = Col.strCol xs →
        ["easy", "hard"] = levelsCoerceThenSort col)) :=
  ⟨by decide,
   clmap_levels_native_sort exData exDep exSt rfl "condition" ["easy", "hard"]
     (by decide)⟩

/-- C5 counterexample: an empty `depends_on` raises `ValueError` (from
`np.hstack([])`), not `ConfigurationError`, and a missing factor raises
`KeyError`; no `ConfigurationError` exists anywhere in the code. -/
theorem set_conditions_configurationerror_fails :
    set_conditions exData [] = .error .valueError ∧
    PyError.valueError ≠ PyError.configurationError ∧
    set_conditions exData [("v", Dep.single "missing")] =
      .error (.keyError "missing") ∧
    PyError.keyError "missing" ≠ PyError.configurationError :=
  ⟨rfl, by decide, rfl, by decide⟩

/-- C5 amended: `set_conditions` does fail — it never silently corrects —
but with `ValueError` when `depends_on` is empty and with `KeyError` when
a referenced (non-sentinel) factor is absent from the data. -/
theorem set_conditions_error_kinds (data : Data) (dep : List (String × Dep)) :
    (dep = [] → set_conditions data dep = .error .valueError) ∧
    (∀ f, f ∈ dep.flatMap (fun pd => depFactors pd.2) → f ≠ "flat" →
       alookup f data.cols = none →
       ∃ c, c ≠ "flat" ∧ alookup c data.cols = none ∧
         set_conditions data dep = .error (.keyError c)) := by
  constructor
  · intro hdep
    unfold set_conditions
    rw [if_pos hdep]
  · intro f hf hff hfn
    have hdep : dep ≠ [] := by
      intro hc
      rw [hc] at hf
      cases hf
    have hfc : f ∈ condsOf dep := (mem_sortedUnique _ _ _).mpr hf
    have hfd1 : alookup f
        (dataWithFlat data ((condsOf dep).contains "flat")).cols = none := by
      cases hb : (condsOf dep).contains "flat" with
      | false => simpa [dataWithFlat] using hfn
      | true =>
        simp only [dataWithFlat, if_pos]
        rw [alookup_setCol_ne _ _ _ hff]
        exact hfn
    cases hmm : clevelsOf (dataWithFlat data ((condsOf dep).contains "flat"))
        (condsOf dep) with
    | ok clevels =>
      exfalso
      have hmm2 := hmm
      unfold clevelsOf at hmm2
      rcases exceptMapM_ok_mem hmm2 f hfc with ⟨y, hy⟩
      have hdg : dataGetCol
          (dataWithFlat data ((condsOf dep).contains "flat")) f =
            .error (.keyError f) := by
        unfold dataGetCol
        rw [hfd1]
      rw [hdg] at hy
      simp [Except.map] at hy
    | error e =>
      have hmm2 := hmm
      unfold clevelsOf at hmm2
      rcases exceptMapM_error_mem hmm2 with ⟨x, hx, hxe⟩
      have hxflat : x ≠ "flat" := by
        intro hc
        subst hc
        have hb : (condsOf dep).contains "flat" = true :=
          List.elem_eq_true_of_mem hx
        have hsome : alookup "flat"
            (dataWithFlat data ((condsOf dep).contains "flat")).cols =
              some (.strCol (List.replicate data.nrows "flat")) := by
          rw [hb]
          simp only [dataWithFlat, if_pos]
          exact alookup_setCol_self data.cols "flat" _
        have hdg : dataGetCol
            (dataWithFlat data ((condsOf dep).contains "flat")) "flat" =
              .ok (.strCol (List.replicate data.nrows "flat")) := by
          unfold dataGetCol
          rw [hsome]
        rw [hdg] at hxe
        simp [Except.map] at hxe
      cases halo : alookup x
          (dataWithFlat data ((condsOf dep).contains "flat")).cols with
      | some col =>
        have hdg : dataGetCol
            (dataWithFlat data ((condsOf dep).contains "flat")) x =
              .ok col := by
          unfold dataGetCol
          rw [halo]
        rw [hdg] at hxe
        simp [Except.map] at hxe
      | none =>
        have hxdata : alookup x data.cols = none := by
          cases hb : (condsOf dep).contains "flat" with
          | false =>
            rw [hb] at halo
            simpa [dataWithFlat] using halo
          | true =>
            rw [hb] at halo
            simp only [dataWithFlat, if_pos] at halo
            rwa [alookup_setCol_ne _ _ _ hxflat] at halo
        have hdg : dataGetCol
            (dataWithFlat data ((condsOf dep).contains "flat")) x =
              .error (.keyError x) := by
          unfold dataGetCol
          rw [halo]
        rw [hdg] at hxe
        simp only [Except.map] at hxe
        have he : e = .keyError x := (Except.error.inj hxe).symm
        refine ⟨x, hxflat, hxdata, ?_⟩
        unfold set_conditions
        rw [if_neg hdep, hmm, he]

/-- C5 amended witness: both failure modes at concrete inputs. -/
theorem set_conditions_error_kinds_witness :
    set_conditions exData [] = .error .valueError ∧
    (∃ c, c ≠ "flat" ∧ alookup c exData.cols = none ∧
      set_conditions exData [("v", Dep.single "missing")] =
        .error (.keyError c)) :=
  ⟨(set_conditions_error_kinds exData []).1 rfl,
   (set_conditions_error_kinds exData [("v", .single "missing")]).2 "missing"
     (by decide) (by decide) (by decide)⟩

/-- C4: for a valid active index, `update_data nlevels` sets `y`/`wts` to
the `ix`'th entries of the conditional lists when `nlevels > 1` and of
the flat lists otherwise, and sets `idx` to the string form of the
`ix`'th subject id when `fit_on == 'subjects'` and to `'avg'`
otherwise. -/
theorem update_data_selects (st : RADDState) (fp : FitParams) (nlevels : Nat)
    (hfp : st.fitparams = some fp)
    (h1 : fp.ix < st.observed.length) (h2 : fp.ix < st.cond_wts.length)
    (h3 : fp.ix < st.observed_flat.length) (h4 : fp.ix < st.flat_wts.length)
    (h5 : fp.ix < st.idx.length) :
    ∃ fp2, update_data st nlevels = .ok { st with fitparams := some fp2 } ∧
      fp2.y = some (if nlevels > 1 then st.observed.get ⟨fp.ix, h1⟩
                    else st.observed_flat.get ⟨fp.ix, h3⟩) ∧
      fp2.wts = some (if nlevels > 1 then st.cond_wts.get ⟨fp.ix, h2⟩
                      else st.flat_wts.get ⟨fp.ix, h4⟩) ∧
      fp2.idx = (if st.fit_on = "subjects" then pyStr (st.idx.get ⟨fp.ix, h5⟩)
                 else "avg") ∧
      fp2.ix = fp.ix ∧ fp2.ntrials = fp.ntrials ∧ fp2.nlevels = fp.nlevels := by
  simp only [update_data, hfp]
  by_cases hnl : nlevels > 1
  · rw [if_pos hnl, pyGet_ok st.observed fp.ix h1,
      pyGet_ok st.cond_wts fp.ix h2]
    dsimp only
    by_cases hsub : st.fit_on = "subjects"
    · rw [if_pos hsub, pyGet_ok st.idx fp.ix h5]
      exact ⟨_, rfl, by simp [hnl], by simp [hnl], by simp [hsub], rfl, rfl, rfl⟩
    · rw [if_neg hsub]
      exact ⟨_, rfl, by simp [hnl], by simp [hnl], by simp [hsub], rfl, rfl, rfl⟩
  · rw [if_neg hnl, pyGet_ok st.observed_flat fp.ix h3,
      pyGet_ok st.flat_wts fp.ix h4]
    dsimp only
    by_cases hsub : st.fit_on = "subjects"
    · rw [if_pos hsub, pyGet_ok st.idx fp.ix h5]
      exact ⟨_, rfl, by simp [hnl], by simp [hnl], by simp [hsub], rfl, rfl, rfl⟩
    · rw [if_neg hsub]
      exact ⟨_, rfl, by simp [hnl], by simp [hnl], by simp [hsub], rfl, rfl, rfl⟩

/-- C4 witness: a one-subject state fit on subjects, conditional
selection (`nlevels = 2`). -/
theorem update_data_selects_witness :
    stA.fitparams = some fpA ∧
    (∃ fp2, update_data stA 2 = .ok { stA with fitparams := some fp2 } ∧
      fp2.y = some (if 2 > 1 then stA.observed.get ⟨fpA.ix, by decide⟩
                    else stA.observed_flat.get ⟨fpA.ix, by decide⟩) ∧
      fp2.wts = some (if 2 > 1 then stA.cond_wts.get ⟨fpA.ix, by decide⟩
                      else stA.flat_wts.get ⟨fpA.ix, by decide⟩) ∧
      fp2.idx = (if stA.fit_on = "subjects" then
                   pyStr (stA.idx.get ⟨fpA.ix, by decide⟩)
                 else "avg") ∧
      fp2.ix = fpA.ix ∧ fp2.ntrials = fpA.ntrials ∧
      fp2.nlevels = fpA.nlevels) :=
  ⟨rfl, update_data_selects stA fpA 2 rfl (by decide) (by decide) (by decide)
    (by decide) (by decide)⟩

/-- C9 counterexample: with the active index out of bounds, `update_data`
raises `IndexError` (bare Python list indexing), not
`ConfigurationError`. -/
theorem update_data_configurationerror_fails :
    update_data stBad 1 = .error .indexError ∧
    (Except.error .indexError : Except PyError RADDState) ≠
      .error .configurationError :=
  ⟨rfl, by decide⟩

/-- C9 amended: an out-of-bounds active index makes `update_data` (and
hence `set_fitparams`, which ends by calling it) fail with `IndexError`
at the first list selection. -/
theorem update_data_out_of_bounds (st : RADDState) (fp : FitParams)
    (nlevels : Nat) (hfp : st.fitparams = some fp)
    (h1 : st.observed.length ≤ fp.ix)
    (h3 : st.observed_flat.length ≤ fp.ix) :
    update_data st nlevels = .error .indexError := by
  simp only [update_data, hfp]
  by_cases hnl : nlevels > 1
  · rw [if_pos hnl, pyGet_err st.observed fp.ix h1]
  · rw [if_neg hnl, pyGet_err st.observed_flat fp.ix h3]

/-- C9 amended witness: index 5 against one-element lists. -/
theorem update_data_out_of_bounds_witness :
    stBad.fitparams = some { fpA with ix := 5 } ∧
    update_data stBad 1 = .error .indexError :=
  ⟨rfl, update_data_out_of_bounds stBad { fpA with ix := 5 } 1 rfl
    (by decide) (by decide)⟩

/-- The row-length of an elementwise fold of equally long rows. -/
theorem foldl_addVec_length :
    ∀ (rs : List (List ℚ)) (r : List ℚ),
      (∀ row ∈ rs, row.length = r.length) →
      (rs.foldl addVec r).length = r.length := by
  intro rs
  induction rs with
  | nil => intro r _; rfl
  | cons b rest ih =>
    intro r hlen
    have hb : b.length = r.length := hlen b (List.mem_cons_self b rest)
    have hab : (addVec r b).length = r.length := by
      simp [addVec, List.length_zipWith, hb]
    simp only [List.foldl_cons]
    rw [ih (addVec r b) ?_, hab]
    intro row hrow
    rw [hlen row (List.mem_cons_of_mem _ hrow), hab]

/-- C6: `__set_ssd_info__` stores `nss = ntrials // 2`,
`nss_per_ssd = nss // nssd`, and when `nlevels == 1` first averages the
SSD matrix across its rows into a single row. -/
theorem ssd_info_counts (ssd0 : List (List ℚ)) (nlevels ntrials nssd : Nat)
    (hn : 0 < nssd) (hne : ssd0 ≠ [])
    (hrect : ∀ row ∈ ssd0, row.length = nssd)
    (info : SSDInfo) (h : ssdInfoCore ssd0 nlevels ntrials = .ok info) :
    info.nss = ntrials / 2 ∧ info.nssd = nssd ∧
    info.nss_per_ssd = (ntrials / 2) / nssd ∧
    (nlevels = 1 → info.ssd = [colMeans ssd0]) := by
  have hlen : ((if nlevels = 1 then [colMeans ssd0] else ssd0).headD []).length
      = nssd := by
    by_cases h1 : nlevels = 1
    · rw [if_pos h1]
      cases ssd0 with
      | nil => exact absurd rfl hne
      | cons r rs =>
        show (colMeans (r :: rs)).length = nssd
        simp only [colMeans, List.length_map]
        rw [foldl_addVec_length rs r ?_]
        · exact hrect r (List.mem_cons_self r rs)
        · intro row hrow
          rw [hrect row (List.mem_cons_of_mem _ hrow),
            hrect r (List.mem_cons_self r rs)]
    · rw [if_neg h1]
      cases ssd0 with
      | nil => exact absurd rfl hne
      | cons r rs => exact hrect r (List.mem_cons_self r rs)
  simp only [ssdInfoCore] at h
  rw [hlen, if_neg (Nat.pos_iff_ne_zero.mp hn)] at h
  cases h
  refine ⟨rfl, rfl, rfl, ?_⟩
  intro h1
  show (if nlevels = 1 then [colMeans ssd0] else ssd0) = [colMeans ssd0]
  rw [if_pos h1]

/-- The concrete evaluation of `ssdInfoCore` on the specification's SSD
scenario (rational arithmetic discharged by `norm_num`). -/
theorem ssdInfoCore_ex_eval :
    ssdInfoCore [[1/5, 1/4, 3/10]] 1 20000 = .ok ssdInfoEx := by
  unfold ssdInfoCore colMeans addVec ssdInfoEx
  norm_num
  decide

/-- C6 witness: the specification's scenario — delays [200,250,300] ms,
`ntrials=20000` gives `nss=10000`, `nssd=3`, `nss_per_ssd=3333`. -/
theorem ssd_info_counts_witness :
    0 < 3 ∧ ssdInfoCore [[1/5, 1/4, 3/10]] 1 20000 = .ok ssdInfoEx ∧
    (ssdInfoEx.nss = 20000 / 2 ∧ ssdInfoEx.nssd = 3 ∧
     ssdInfoEx.nss_per_ssd = (20000 / 2) / 3 ∧
     (1 = 1 → ssdInfoEx.ssd = [colMeans [[1/5, 1/4, 3/10]]])) :=
  ⟨by decide, ssdInfoCore_ex_eval,
   ssd_info_counts [[1/5, 1/4, 3/10]] 1 20000 3 (by decide) (by decide)
     (by decide) ssdInfoEx ssdInfoCore_ex_eval⟩

/-- C8: writing a parameter dictionary with `params_io(io='w')` and
reading it back with `params_io(io='r')` returns a mapping with the same
parameter names mapped to the same values. -/
theorem params_io_roundtrip (p : List (String × ℚ))
    (hnd : (p.map Prod.fst).Nodup) (k : String) :
    alookup k (params_io_r (params_io_w p)) = alookup k p := by
  have hperm : List.Perm (params_io_w p) p := sortLe_perm _ p
  have hnd2 : ((params_io_w p).map Prod.fst).Nodup :=
    ((hperm.map Prod.fst).nodup_iff).mpr hnd
  rw [params_io_r, dictOfPairs_eq_self hnd2]
  exact alookup_perm hperm hnd2 k

/-- C8 witness: a three-parameter dictionary survives the round trip. -/
theorem params_io_roundtrip_witness :
    (pEx.map Prod.fst).Nodup ∧
    alookup "v" (params_io_r (params_io_w pEx)) = alookup "v" pEx :=
  ⟨by decide, params_io_roundtrip pEx (by decide) "v"⟩

/-- C10 counterexample: with `finfo` left `None` (its default), the very
first statement `dict(deepcopy(finfo))` raises `TypeError`, so the claim
that every call raises `NameError` is false at that input. -/
theorem extract_popt_nameerror_fails :
    extract_popt_fitinfo .noneV none none = .error .typeError ∧
    (Except.error .typeError : Except PyError (List (String × List ℚ))) ≠
      .error (.nameError "inits") :=
  ⟨rfl, by decide⟩

/-- C10 amended: `extract_popt_fitinfo` never returns a `popt`
dictionary — every call raises: `TypeError` when `finfo` is `None`, and
`NameError` (the unbound name `inits`) whenever `finfo` is a mapping. -/
theorem extract_popt_always_raises (finfo : FinfoArg)
    (plist : Option (List String))
    (pcmap : Option (List (String × List String))) :
    (∃ e, extract_popt_fitinfo finfo plist pcmap = .error e) ∧
    (∀ d, finfo = .dictV d →
      extract_popt_fitinfo finfo plist pcmap = .error (.nameError "inits")) := by
  cases finfo with
  | noneV => exact ⟨⟨.typeError, rfl⟩, fun d hd => by cases hd⟩
  | dictV d => exact ⟨⟨.nameError "inits", rfl⟩, fun d2 _ => rfl⟩

/-- `update_data` only rewrites `y`, `wts` and `idx` inside `fitparams`;
every other field of the record and of the state is untouched. -/
theorem update_data_shape {s : RADDState} {nl : Nat} {s2 : RADDState}
    (h : update_data s nl = .ok s2) :
    ∃ fp fp2, s.fitparams = some fp ∧
      s2 = { s with fitparams := some fp2 } ∧
      fp2.ix = fp.ix ∧ fp2.ntrials = fp.ntrials ∧ fp2.si = fp.si ∧
      fp2.dt = fp.dt ∧ fp2.tol = fp.tol ∧ fp2.method = fp.method ∧
      fp2.maxfev = fp.maxfev ∧ fp2.maxiter = fp.maxiter ∧
      fp2.kind = fp.kind ∧ fp2.quantiles = fp.quantiles ∧
      fp2.fit_on = fp.fit_on ∧ fp2.nlevels = fp.nlevels ∧
      fp2.nidx = fp.nidx ∧ fp2.ssd_info = fp.ssd_info := by
  unfold update_data at h
  cases hfp : s.fitparams with
  | none => rw [hfp] at h; cases h
  | some fp =>
    rw [hfp] at h
    dsimp only at h
    by_cases hnl : nl > 1
    · rw [if_pos hnl] at h
      cases hg1 : pyGet s.observed fp.ix with
      | error e => rw [hg1] at h; dsimp only at h; cases h
      | ok y =>
        rw [hg1] at h
        cases hg2 : pyGet s.cond_wts fp.ix with
        | error e => rw [hg2] at h; dsimp only at h; cases h
        | ok w =>
          rw [hg2] at h
          dsimp only at h
          by_cases hfo : s.fit_on = "subjects"
          · rw [if_pos hfo] at h
            cases hg5 : pyGet s.idx fp.ix with
            | error e => rw [hg5] at h; cases h
            | ok v =>
              rw [hg5] at h
              cases h
              exact ⟨fp, _, rfl, rfl, rfl, rfl, rfl, rfl, rfl, rfl, rfl, rfl,
                rfl, rfl, rfl, rfl, rfl, rfl⟩
          · rw [if_neg hfo] at h
            cases h
            exact ⟨fp, _, rfl, rfl, rfl, rfl, rfl, rfl, rfl, rfl, rfl, rfl,
              rfl, rfl, rfl, rfl, rfl, rfl⟩
    · rw [if_neg hnl] at h
      cases hg3 : pyGet s.observed_flat fp.ix with
      | error e => rw [hg3] at h; dsimp only at h; cases h
      | ok y =>
        rw [hg3] at h
        cases hg4 : pyGet s.flat_wts fp.ix with
        | error e => rw [hg4] at h; dsimp only at h; cases h
        | ok w =>
          rw [hg4] at h
          dsimp only at h
          by_cases hfo : s.fit_on = "subjects"
          · rw [if_pos hfo] at h
            cases hg5 : pyGet s.idx fp.ix with
            | error e => rw [hg5] at h; cases h
            | ok v =>
              rw [hg5] at h
              cases h
              exact ⟨fp, _, rfl, rfl, rfl, rfl, rfl, rfl, rfl, rfl, rfl, rfl,
                rfl, rfl, rfl, rfl, rfl, rfl⟩
          · rw [if_neg hfo] at h
            cases h
            exact ⟨fp, _, rfl, rfl, rfl, rfl, rfl, rfl, rfl, rfl, rfl, rfl,
              rfl, rfl, rfl, rfl, rfl, rfl⟩

/-- `__set_ssd_info__` only rewrites `ssd_info` inside `fitparams`. -/
theorem set_ssd_info_shape {s s2 : RADDState} (h : set_ssd_info s = .ok s2) :
    ∃ fp fp2, s.fitparams = some fp ∧
      s2 = { s with fitparams := some fp2 } ∧
      fp2.ix = fp.ix ∧ fp2.ntrials = fp.ntrials ∧ fp2.si = fp.si ∧
      fp2.dt = fp.dt ∧ fp2.tol = fp.tol ∧ fp2.method = fp.method ∧
      fp2.maxfev = fp.maxfev ∧ fp2.maxiter = fp.maxiter ∧
      fp2.kind = fp.kind ∧ fp2.quantiles = fp.quantiles ∧
      fp2.fit_on = fp.fit_on ∧ fp2.nlevels = fp.nlevels ∧
      fp2.nidx = fp.nidx := by
  unfold set_ssd_info at h
  cases hfp : s.fitparams with
  | none => rw [hfp] at h; cases h
  | some fp =>
    rw [hfp] at h
    cases hsd : s.ssdData with
    | none => rw [hsd] at h; cases h
    | some tabs =>
      rw [hsd] at h
      dsimp only at h
      by_cases hfo : s.fit_on = "average"
      · rw [if_pos hfo] at h
        dsimp only at h
        cases hic : ssdInfoCore tabs.avg fp.nlevels fp.ntrials with
        | error e => rw [hic] at h; cases h
        | ok info =>
          rw [hic] at h
          cases h
          exact ⟨fp, _, rfl, rfl, rfl, rfl, rfl, rfl, rfl, rfl, rfl, rfl,
            rfl, rfl, rfl, rfl, rfl⟩
      · rw [if_neg hfo] at h
        cases hg : pyGet s.idx fp.ix with
        | error e => rw [hg] at h; dsimp only at h; cases h
        | ok v =>
          rw [hg] at h
          cases hg2 : pyGet tabs.subj fp.ix with
          | error e => rw [hg2] at h; dsimp only at h; cases h
          | ok ssd0 =>
            rw [hg2] at h
            dsimp only at h
            cases hic : ssdInfoCore ssd0 fp.nlevels fp.ntrials with
            | error e => rw [hic] at h; cases h
            | ok info =>
              rw [hic] at h
              cases h
              exact ⟨fp, _, rfl, rfl, rfl, rfl, rfl, rfl, rfl, rfl, rfl, rfl,
                rfl, rfl, rfl, rfl, rfl⟩

/-- `__set_ssd_info__` overwrites `ssd_info`, so the value it held before
the call is irrelevant. -/
theorem set_ssd_info_ssd_irrel (st : RADDState) (fp : FitParams)
    (s1 s2 : Option SSDInfo) :
    set_ssd_info { st with fitparams := some { fp with ssd_info := s1 } } =
      set_ssd_info { st with fitparams := some { fp with ssd_info := s2 } } := by
  unfold set_ssd_info
  dsimp only
  cases st.ssdData with
  | none => rfl
  | some tabs => rfl

/-- The tail of `set_fitparams` after the force step (`update_data` plus
the conditional `__set_ssd_info__`) overwrites `y`, `wts` and `idx`, and
also `ssd_info` when SSD data is present; so those fields of the merged
record do not influence the result. -/
theorem fitTail_congr (st : RADDState) (fp : FitParams) (i : String)
    (y w : Option (List ℚ)) (s : Option SSDInfo)
    (hs : st.ssdData = none → s = fp.ssd_info) :
    fitTail
        { st with
          fitparams := some { fp with idx := i, y := y, wts := w, ssd_info := s } }
        fp.nlevels =
      fitTail { st with fitparams := some fp } fp.nlevels := by
  unfold fitTail update_data
  dsimp only
  by_cases hnl : fp.nlevels > 1
  · rw [if_pos hnl]
    cases hg1 : pyGet st.observed fp.ix with
    | error e => rfl
    | ok yv =>
      cases hg2 : pyGet st.cond_wts fp.ix with
      | error e => rfl
      | ok wv =>
        dsimp only
        by_cases hfo : st.fit_on = "subjects"
        · rw [if_pos hfo, if_pos hfo]
          cases hg5 : pyGet st.idx fp.ix with
          | error e => rfl
          | ok v =>
            dsimp only
            cases hsdd : st.ssdData with
            | none =>
              have hss : s = fp.ssd_info := hs hsdd
              subst hss
              rfl
            | some tabs =>
              exact set_ssd_info_ssd_irrel { st with ssdData := some tabs }
                { fp with y := some yv, wts := some wv, idx := pyStr v }
                s fp.ssd_info
        · rw [if_neg hfo, if_neg hfo]
          dsimp only
          cases hsdd : st.ssdData with
          | none =>
            have hss : s = fp.ssd_info := hs hsdd
            subst hss
            rfl
          | some tabs =>
            exact set_ssd_info_ssd_irrel { st with ssdData := some tabs }
              { fp with y := some yv, wts := some wv, idx := "avg" }
              s fp.ssd_info
  · rw [if_neg hnl]
    cases hg3 : pyGet st.observed_flat fp.ix with
    | error e => rfl
    | ok yv =>
      cases hg4 : pyGet st.flat_wts fp.ix with
      | error e => rfl
      | ok wv =>
        dsimp only
        by_cases hfo : st.fit_on = "subjects"
        · rw [if_pos hfo, if_pos hfo]
          cases hg5 : pyGet st.idx fp.ix with
          | error e => rfl
          | ok v =>
            dsimp only
            cases hsdd : st.ssdData with
            | none =>
              have hss : s = fp.ssd_info := hs hsdd
              subst hss
              rfl
            | some tabs =>
              exact set_ssd_info_ssd_irrel { st with ssdData := some tabs }
                { fp with y := some yv, wts := some wv, idx := pyStr v }
                s fp.ssd_info
        · rw [if_neg hfo, if_neg hfo]
          dsimp only
          cases hsdd : st.ssdData with
          | none =>
            have hss : s = fp.ssd_info := hs hsdd
            subst hss
            rfl
          | some tabs =>
            exact set_ssd_info_ssd_irrel { st with ssdData := some tabs }
              { fp with y := some yv, wts := some wv, idx := "avg" }
              s fp.ssd_info

/-- `fitPipeline` is determined by the fields of the merged record that
the tail does not overwrite (plus `nlevels` when no `force` override
pins it, and `ssd_info` when no SSD data is present to recompute it). -/
theorem fitPipeline_congr (st : RADDState) (force : Option String)
    (a b : FitParams)
    (hix : a.ix = b.ix) (hnt : a.ntrials = b.ntrials) (hsi : a.si = b.si)
    (hdt : a.dt = b.dt) (htol : a.tol = b.tol) (hmet : a.method = b.method)
    (hfev : a.maxfev = b.maxfev) (hiter : a.maxiter = b.maxiter)
    (hkind : a.kind = b.kind) (hqu : a.quantiles = b.quantiles)
    (hfo : a.fit_on = b.fit_on) (hnidx : a.nidx = b.nidx)
    (hnl : force ≠ some "cond" → force ≠ some "flat" → a.nlevels = b.nlevels)
    (hsd : st.ssdData = none → a.ssd_info = b.ssd_info) :
    fitPipeline st force a = fitPipeline st force b := by
  obtain ⟨aix, ant, asi, adt, atol, amet, afev, aiter, akind, aqu, afo, anl,
    anidx, aidv, ayv, awv, asd⟩ := a
  obtain ⟨bix, bnt, bsi, bdt, btol, bmet, bfev, biter, bkind, bqu, bfo, bnl,
    bnidx, bidv, byv, bwv, bsd⟩ := b
  dsimp only at hix hnt hsi hdt htol hmet hfev hiter hkind hqu hfo hnidx hnl hsd
  subst hix; subst hnt; subst hsi; subst hdt; subst htol; subst hmet
  subst hfev; subst hiter; subst hkind; subst hqu; subst hfo; subst hnidx
  unfold fitPipeline
  dsimp only
  by_cases hc : force = some "cond"
  · rw [if_pos hc, if_pos hc]
    exact fitTail_congr st
      ⟨aix, ant, asi, adt, atol, amet, afev, aiter, akind, aqu, afo,
        st.nlevels, anidx, bidv, byv, bwv, bsd⟩
      aidv ayv awv asd hsd
  · rw [if_neg hc, if_neg hc]
    by_cases hfl : force = some "flat"
    · rw [if_pos hfl, if_pos hfl]
      exact fitTail_congr st
        ⟨aix, ant, asi, adt, atol, amet, afev, aiter, akind, aqu, afo,
          1, anidx, bidv, byv, bwv, bsd⟩
        aidv ayv awv asd hsd
    · rw [if_neg hfl, if_neg hfl]
      have heq : anl = bnl := hnl hc hfl
      subst heq
      exact fitTail_congr st
        ⟨aix, ant, asi, adt, atol, amet, afev, aiter, akind, aqu, afo,
          anl, anidx, bidv, byv, bwv, bsd⟩
        aidv ayv awv asd hsd

/-- The result record of the pipeline tail keeps every field of the
merged record that the tail does not overwrite. -/
theorem fitTail_shape {s : RADDState} {nl : Nat} {st1 : RADDState}
    (h : fitTail s nl = .ok st1) :
    ∃ fp fp1, s.fitparams = some fp ∧
      st1 = { s with fitparams := some fp1 } ∧
      fp1.ix = fp.ix ∧ fp1.ntrials = fp.ntrials ∧ fp1.si = fp.si ∧
      fp1.dt = fp.dt ∧ fp1.tol = fp.tol ∧ fp1.method = fp.method ∧
      fp1.maxfev = fp.maxfev ∧ fp1.maxiter = fp.maxiter ∧
      fp1.kind = fp.kind ∧ fp1.quantiles = fp.quantiles ∧
      fp1.fit_on = fp.fit_on ∧ fp1.nlevels = fp.nlevels ∧
      fp1.nidx = fp.nidx ∧
      (s.ssdData = none → fp1.ssd_info = fp.ssd_info) := by
  unfold fitTail at h
  cases hud : update_data s nl with
  | error e => rw [hud] at h; cases h
  | ok st3 =>
    rw [hud] at h
    dsimp only at h
    obtain ⟨fp, fp3, hfp, hst3, hix, hnt, hsi, hdt, htol, hmet, hfev, hiter,
      hkind, hqu, hfo, hnlv, hnidx, hsd3⟩ := update_data_shape hud
    subst hst3
    dsimp only at h
    cases hsdd : s.ssdData with
    | none =>
      rw [hsdd] at h
      cases h
      exact ⟨fp, fp3, hfp, rfl, hix, hnt, hsi, hdt, htol, hmet, hfev, hiter,
        hkind, hqu, hfo, hnlv, hnidx, fun _ => hsd3⟩
    | some tabs =>
      rw [hsdd] at h
      dsimp only at h
      obtain ⟨fpx, fp4, hfpx, hst4, kix, knt, ksi, kdt, ktol, kmet, kfev,
        kiter, kkind, kqu, kfo, knlv, knidx⟩ := set_ssd_info_shape h
      dsimp only at hfpx
      cases hfpx
      subst hst4
      refine ⟨fp, fp4, hfp, rfl, ?_, ?_, ?_, ?_, ?_, ?_, ?_, ?_, ?_, ?_, ?_,
        ?_, ?_, ?_⟩
      · exact kix.trans hix
      · exact knt.trans hnt
      · exact ksi.trans hsi
      · exact kdt.trans hdt
      · exact ktol.trans htol
      · exact kmet.trans hmet
      · exact kfev.trans hfev
      · exact kiter.trans hiter
      · exact kkind.trans hkind
      · exact kqu.trans hqu
      · exact kfo.trans hfo
      · exact knlv.trans hnlv
      · exact knidx.trans hnidx
      · intro hnone
        exact Option.noConfusion hnone

/-- A successful `fitPipeline` only replaces `fitparams`, and its result
record keeps the merged record's fields apart from the overwritten
ones. -/
theorem fitPipeline_shape {st : RADDState} {force : Option String}
    {fpm : FitParams} {st1 : RADDState}
    (h : fitPipeline st force fpm = .ok st1) :
    ∃ fp1, st1 = { st with fitparams := some fp1 } ∧
      fp1.ix = fpm.ix ∧ fp1.ntrials = fpm.ntrials ∧ fp1.si = fpm.si ∧
      fp1.dt = fpm.dt ∧ fp1.tol = fpm.tol ∧ fp1.method = fpm.method ∧
      fp1.maxfev = fpm.maxfev ∧ fp1.maxiter = fpm.maxiter ∧
      fp1.kind = fpm.kind ∧ fp1.quantiles = fpm.quantiles ∧
      fp1.fit_on = fpm.fit_on ∧ fp1.nidx = fpm.nidx ∧
      (force ≠ some "cond" → force ≠ some "flat" → fp1.nlevels = fpm.nlevels) ∧
      (st.ssdData = none → fp1.ssd_info = fpm.ssd_info) := by
  unfold fitPipeline at h
  dsimp only at h
  by_cases hc : force = some "cond"
  · rw [if_pos hc] at h
    obtain ⟨fp0, fp1, hfp0, hst1, hix, hnt, hsi, hdt, htol, hmet, hfev, hiter,
      hkind, hqu, hfo, hnlv, hnidx, hsd⟩ := fitTail_shape h
    dsimp only at hfp0
    have hfp0e := Option.some.inj hfp0
    subst hfp0e
    exact ⟨fp1, hst1, hix, hnt, hsi, hdt, htol, hmet, hfev, hiter, hkind,
      hqu, hfo, hnidx, fun hcond _ => absurd hc hcond, hsd⟩
  · rw [if_neg hc] at h
    by_cases hfl : force = some "flat"
    · rw [if_pos hfl] at h
      obtain ⟨fp0, fp1, hfp0, hst1, hix, hnt, hsi, hdt, htol, hmet, hfev,
        hiter, hkind, hqu, hfo, hnlv, hnidx, hsd⟩ := fitTail_shape h
      dsimp only at hfp0
      have hfp0e := Option.some.inj hfp0
      subst hfp0e
      exact ⟨fp1, hst1, hix, hnt, hsi, hdt, htol, hmet, hfev, hiter, hkind,
        hqu, hfo, hnidx, fun _ hflat => absurd hfl hflat, hsd⟩
    · rw [if_neg hfl] at h
      obtain ⟨fp0, fp1, hfp0, hst1, hix, hnt, hsi, hdt, htol, hmet, hfev,
        hiter, hkind, hqu, hfo, hnlv, hnidx, hsd⟩ := fitTail_shape h
      dsimp only at hfp0
      have hfp0e := Option.some.inj hfp0
      subst hfp0e
      exact ⟨fp1, hst1, hix, hnt, hsi, hdt, htol, hmet, hfev, hiter, hkind,
        hqu, hfo, hnidx, fun _ _ => hnlv, hsd⟩

/-- C7 counterexample: from a state whose `fitparams` has not yet been
initialized, the first `set_fitparams` call IGNORES the passed overrides
(they are merged only in the `else` branch of CORE.py lines 154-157), so
a second call with the same overrides changes the record: `ntrials` is
20000 after the first call and 1000 after the second. -/
theorem set_fitparams_idempotence_fails :
    (set_fitparams stU none kwU).map
        (fun s => s.fitparams.map (fun fpx => fpx.ntrials)) =
      .ok (some 20000) ∧
    ((set_fitparams stU none kwU).bind
        (fun s => set_fitparams s none kwU)).map
        (fun s => s.fitparams.map (fun fpx => fpx.ntrials)) =
      .ok (some 1000) ∧
    (20000 : Nat) ≠ 1000 :=
  ⟨rfl, rfl, by decide⟩

/-- C7 amended: once `fitparams` has been initialized, calling
`set_fitparams` twice in a row with the same `force` flag and keyword
overrides (over the plain record keys; the `quantiles`/`depends_on`
rebuild keys live in the external `DataHandler`) leaves the record
exactly as after the first call: the second call is a no-op. -/
theorem set_fitparams_idempotent_initialized (st : RADDState)
    (fp : FitParams) (force : Option String) (kw : FitKwargs)
    (st1 : RADDState) (hfp : st.fitparams = some fp)
    (h : set_fitparams st force kw = .ok st1) :
    set_fitparams st1 force kw = .ok st1 := by
  unfold set_fitparams at h
  rw [hfp] at h
  dsimp only at h
  obtain ⟨fp1, hst1, hix, hnt, hsi, hdt, htol, hmet, hfev, hiter, hkind, hqu,
    hfo, hnidx, hnlv, hsd⟩ := fitPipeline_shape h
  subst hst1
  unfold set_fitparams
  dsimp only
  have hre : fitPipeline { st with fitparams := some fp1 } force
      (applyKwargs fp1 kw) = fitPipeline st force (applyKwargs fp1 kw) := rfl
  rw [hre]
  have hix2 : (applyKwargs fp1 kw).ix = (applyKwargs fp kw).ix := by
    have h0 : (applyKwargs fp1 kw).ix = kw.ix.getD fp1.ix := rfl
    rw [h0, hix]
    exact getD_absorb kw.ix fp.ix
  have hnt2 : (applyKwargs fp1 kw).ntrials = (applyKwargs fp kw).ntrials := by
    have h0 : (applyKwargs fp1 kw).ntrials = kw.ntrials.getD fp1.ntrials := rfl
    rw [h0, hnt]
    exact getD_absorb kw.ntrials fp.ntrials
  have htol2 : (applyKwargs fp1 kw).tol = (applyKwargs fp kw).tol := by
    have h0 : (applyKwargs fp1 kw).tol = kw.tol.getD fp1.tol := rfl
    rw [h0, htol]
    exact getD_absorb kw.tol fp.tol
  have hnlv2 : force ≠ some "cond" → force ≠ some "flat" →
      (applyKwargs fp1 kw).nlevels = (applyKwargs fp kw).nlevels := by
    intro hc hf
    have h0 : (applyKwargs fp1 kw).nlevels = kw.nlevels.getD fp1.nlevels := rfl
    rw [h0, hnlv hc hf]
    exact getD_absorb kw.nlevels fp.nlevels
  have hsd2 : st.ssdData = none →
      (applyKwargs fp1 kw).ssd_info = (applyKwargs fp kw).ssd_info :=
    fun hnone => hsd hnone
  rw [fitPipeline_congr st force (applyKwargs fp1 kw) (applyKwargs fp kw)
    hix2 hnt2 hsi hdt htol2 hmet hfev hiter hkind hqu hfo hnidx hnlv2 hsd2]
  exact h

/-- C7 amended witness: from the initialized state `stA`, the first call
with `ntrials := 1000` produces `st1Ex` and the second call reproduces it
exactly. -/
theorem set_fitparams_idempotent_initialized_witness :
    stA.fitparams = some fpA ∧
    set_fitparams stA none kwU = .ok st1Ex ∧
    set_fitparams st1Ex none kwU = .ok st1Ex :=
  ⟨rfl, rfl,
   set_fitparams_idempotent_initialized stA fpA none kwU st1Ex rfl rfl⟩

/-- C10 amended witness: a mapping `finfo` raises the `NameError`. -/
theorem extract_popt_always_raises_witness :
    (∃ e, extract_popt_fitinfo (.dictV [("v", 1)]) none none = .error e) ∧
    extract_popt_fitinfo (.dictV [("v", 1)]) none none =
      .error (.nameError "inits") :=
  ⟨(extract_popt_always_raises (.dictV [("v", 1)]) none none).1,
   (extract_popt_always_raises (.dictV [("v", 1)]) none none).2
     [("v", 1)] rfl⟩

end Radd
